import Mathlib

/-!
Verification development for the turn-generation/sorting core of a
computational-geometry overlay engine (Boost.Geometry relate/overlay subset).

The definitions below are shallow embeddings of the reviewed C++ sources:
  - algorithms/detail/relate/turns.hpp (operation priority tables, turn sorter)
  - policies/relate/intersection_points.hpp (segment intersection policy)

Machine integers are modelled as unbounded Int except where a bounded integer
coordinate domain is explicitly part of the property under study; C++ integer
division (truncation toward zero) is modelled by Int.tdiv.
-/

namespace BoostGeometry

/-- Embeds the overlay operation enumeration
(detail::overlay::operation_type) referenced by turns.hpp. -/
inductive OperationType where
  | operation_none
  | operation_union
  | operation_intersection
  | operation_blocked
  | operation_continue
  | operation_opposite
  deriving DecidableEq

/-- Modelled from the spec: the Segment Identifier tuple
{source operand index, multi-geometry component index, ring index,
segment index}; the segment_identifier type itself lives outside the
reviewed sources (only its fields and ordering are specified). -/
structure SegmentIdentifier where
  source_index : Int
  multi_index : Int
  ring_index : Int
  segment_index : Int
  deriving DecidableEq

/-- Lexicographic strict order over the four identifier fields, as a Prop. -/
def sidLtP (a b : SegmentIdentifier) : Prop :=
  a.source_index < b.source_index ∨ (a.source_index = b.source_index ∧
    (a.multi_index < b.multi_index ∨ (a.multi_index = b.multi_index ∧
      (a.ring_index < b.ring_index ∨ (a.ring_index = b.ring_index ∧
        a.segment_index < b.segment_index)))))

instance (a b : SegmentIdentifier) : Decidable (sidLtP a b) := by
  unfold sidLtP; infer_instance

/-- Modelled from the spec: segment identifiers are totally ordered
lexicographically over their four fields. -/
def SegmentIdentifier.lt (a b : SegmentIdentifier) : Bool :=
  decide (sidLtP a b)

/-- Modelled from the spec: the Exact Ratio numerator/denominator pair
(segment_ratio lives outside the reviewed sources); the denominator is
kept strictly positive by construction, which theorems below carry as an
explicit hypothesis. -/
structure SegmentRatio where
  num : Int
  den : Int
  deriving DecidableEq

/-- Modelled from the spec: ratio comparison by cross-multiplication
(numerator times other denominator), never by division. -/
def SegmentRatio.ltB (a b : SegmentRatio) : Bool :=
  decide (a.num * b.den < b.num * a.den)

/-- Modelled from the spec: ratio equality by cross-multiplication. -/
def SegmentRatio.eqB (a b : SegmentRatio) : Bool :=
  decide (a.num * b.den = b.num * a.den)

/-- The canonical zero ratio (segment start). -/
def SegmentRatio.zero : SegmentRatio := ⟨0, 1⟩

/-- The canonical one ratio (segment end). -/
def SegmentRatio.one : SegmentRatio := ⟨1, 1⟩

/-- Modelled from the spec: on_segment is the inclusive range test,
0 <= ratio <= 1, written on the unreduced pair. -/
def SegmentRatio.on_segmentB (r : SegmentRatio) : Bool :=
  decide (0 ≤ r.num ∧ r.num ≤ r.den)

/-- Modelled from the spec: in_segment is the interior-only range test,
0 < ratio < 1, written on the unreduced pair. -/
def SegmentRatio.in_segmentB (r : SegmentRatio) : Bool :=
  decide (0 < r.num ∧ r.num < r.den)

/-- The opposing operand's component/ring identification carried by a
turn operation (other_id in turns.hpp). -/
structure OtherId where
  multi_index : Int
  ring_index : Int
  deriving DecidableEq

/-- One operand's record inside a Turn: operation tag, own segment
identifier, own position fraction, and the opposing operand's id. -/
structure TurnOperation where
  operation : OperationType
  seg_id : SegmentIdentifier
  fraction : SegmentRatio
  other_id : OtherId
  deriving DecidableEq

/-- A Turn's pair of operations, indexed by operand 0 and operand 1. -/
structure Turn where
  op0 : TurnOperation
  op1 : TurnOperation
  deriving DecidableEq

/-- Array-style access operations[OpId] used by the sorter. -/
def Turn.operations (t : Turn) : Fin 2 → TurnOperation
  | 0 => t.op0
  | 1 => t.op1

/-- op_to_int<N,U,I,B,C,O> from turns.hpp: maps an operation tag to its
integer priority. -/
def op_to_int (N U I B C O : Int) : OperationType → Int
  | .operation_none => N
  | .operation_union => U
  | .operation_intersection => I
  | .operation_blocked => B
  | .operation_continue => C
  | .operation_opposite => O

/-- less_op_xxx_linear<OpToInt> from turns.hpp: compares two operations
by their priority values alone. -/
def less_op_xxx_linear (opToInt : OperationType → Int) (left right : TurnOperation) : Bool :=
  decide (opToInt left.operation < opToInt right.operation)

/-- less_op_linear_linear from turns.hpp: the linear/linear priority
comparator, table op_to_int<0,2,3,1,4,0>. -/
def less_op_linear_linear : TurnOperation → TurnOperation → Bool :=
  less_op_xxx_linear (op_to_int 0 2 3 1 4 0)

/-- less_op_linear_areal from turns.hpp: chooses table
op_to_int<0,2,3,1,4,0> when other multi and ring indices both agree,
table op_to_int<0,3,2,1,4,0> when only the multi index agrees, and
otherwise compares the other multi indices directly. -/
def less_op_linear_areal (left right : TurnOperation) : Bool :=
  if left.other_id.multi_index = right.other_id.multi_index then
    if left.other_id.ring_index = right.other_id.ring_index then
      decide (op_to_int 0 2 3 1 4 0 left.operation < op_to_int 0 2 3 1 4 0 right.operation)
    else
      decide (op_to_int 0 3 2 1 4 0 left.operation < op_to_int 0 3 2 1 4 0 right.operation)
  else
    decide (left.other_id.multi_index < right.other_id.multi_index)

/-- less_op_areal_linear from turns.hpp: the areal/linear priority
comparator, table op_to_int<0,1,0,0,2,0>. -/
def less_op_areal_linear : TurnOperation → TurnOperation → Bool :=
  less_op_xxx_linear (op_to_int 0 1 0 0 2 0)

/-- less_op_areal_areal from turns.hpp, including the outer-ring
sentinel (-1) exception in the equal-multi different-ring branch; note
that the differing-multi branch applies table op_to_int<0,1,2,3,4,0>. -/
def less_op_areal_areal (left right : TurnOperation) : Bool :=
  if left.other_id.multi_index = right.other_id.multi_index then
    if left.other_id.ring_index = right.other_id.ring_index then
      decide (op_to_int 0 1 2 3 4 0 left.operation < op_to_int 0 1 2 3 4 0 right.operation)
    else
      if left.other_id.ring_index = -1 then
        if left.operation = .operation_union then false
        else if left.operation = .operation_intersection then true
        else decide (op_to_int 0 2 1 3 4 0 left.operation < op_to_int 0 2 1 3 4 0 right.operation)
      else if right.other_id.ring_index = -1 then
        if right.operation = .operation_union then true
        else if right.operation = .operation_intersection then false
        else decide (op_to_int 0 2 1 3 4 0 left.operation < op_to_int 0 2 1 3 4 0 right.operation)
      else
        decide (op_to_int 0 2 1 3 4 0 left.operation < op_to_int 0 2 1 3 4 0 right.operation)
  else
    decide (op_to_int 0 1 2 3 4 0 left.operation < op_to_int 0 1 2 3 4 0 right.operation)

/-- less<OpId,LessOp>::use_fraction from turns.hpp: equal fractions fall
through to the operation comparator, unequal fractions compare directly. -/
def use_fraction (lessOp : TurnOperation → TurnOperation → Bool)
    (left right : TurnOperation) : Bool :=
  if SegmentRatio.eqB left.fraction right.fraction then lessOp left right
  else SegmentRatio.ltB left.fraction right.fraction

/-- less<OpId,LessOp>::operator() from turns.hpp: the Turn Sorter
comparator, seg_id first, then fraction, then the operation comparator. -/
def less (lessOp : TurnOperation → TurnOperation → Bool) (opId : Fin 2)
    (left right : Turn) : Bool :=
  let sl := (left.operations opId).seg_id
  let sr := (right.operations opId).seg_id
  SegmentIdentifier.lt sl sr ||
    (decide (sl = sr) && use_fraction lessOp (left.operations opId) (right.operations opId))

/-- A point over the integer coordinate domain. -/
structure Point where
  x : Int
  y : Int
  deriving DecidableEq

/-- A segment: ordered pair of points (first, second). -/
structure Segment where
  first : Point
  second : Point
  deriving DecidableEq

/-- The pair of robust ratios stored in a result fraction slot
(fractions[i].assign in intersection_points.hpp). -/
structure FractionPair where
  robust_ra : SegmentRatio
  robust_rb : SegmentRatio
  deriving DecidableEq

/-- The return_type of the intersection-points policy: a count plus two
point slots and two fraction slots (default-initialized when unused). -/
structure IntersectionResult where
  count : Nat
  ip0 : Point
  ip1 : Point
  fr0 : FractionPair
  fr1 : FractionPair
  deriving DecidableEq

/-- A default-constructed return_type (count 0, zeroed slots). -/
def emptyResult : IntersectionResult :=
  { count := 0, ip0 := ⟨0, 0⟩, ip1 := ⟨0, 0⟩,
    fr0 := ⟨SegmentRatio.zero, SegmentRatio.zero⟩,
    fr1 := ⟨SegmentRatio.zero, SegmentRatio.zero⟩ }

/-- The precomputed segment-intersection info consumed by
segments_crosses: both candidate robust ratios and both delta pairs. -/
structure SegmentIntersectionInfo where
  robust_ra : SegmentRatio
  robust_rb : SegmentRatio
  dx_a : Int
  dy_a : Int
  dx_b : Int
  dy_b : Int

/-- assign from intersection_points.hpp over the unbounded integer
domain: postponed division, numerator times delta divided (C++
truncated division) by the denominator, added to the segment start. -/
def assign (segment : Segment) (ratio : SegmentRatio) (dx dy : Int) : Point :=
  { x := segment.first.x + Int.tdiv (ratio.num * dx) ratio.den,
    y := segment.first.y + Int.tdiv (ratio.num * dy) ratio.den }

/-- segments_crosses from intersection_points.hpp: one point, chosen
from segment 1 when robust_ra < robust_rb and from segment 2 otherwise. -/
def segments_crosses (sinfo : SegmentIntersectionInfo) (s1 s2 : Segment) :
    IntersectionResult :=
  { count := 1,
    ip0 :=
      if SegmentRatio.ltB sinfo.robust_ra sinfo.robust_rb then
        assign s1 sinfo.robust_ra sinfo.dx_a sinfo.dy_a
      else
        assign s2 sinfo.robust_rb sinfo.dx_b sinfo.dy_b,
    ip1 := ⟨0, 0⟩,
    fr0 := ⟨sinfo.robust_ra, sinfo.robust_rb⟩,
    fr1 := ⟨SegmentRatio.zero, SegmentRatio.zero⟩ }

/-- The mutable locals of segments_collinear: the running admission
index, the two result slots, and the on_a positions of admitted points. -/
structure CollinearState where
  index : Nat
  ip0 : Point
  ip1 : Point
  fr0 : FractionPair
  fr1 : FractionPair
  on_a0 : SegmentRatio
  on_a1 : SegmentRatio

/-- Initial state of segments_collinear (index 0, default slots). -/
def collinearInit : CollinearState :=
  { index := 0, ip0 := ⟨0, 0⟩, ip1 := ⟨0, 0⟩,
    fr0 := ⟨SegmentRatio.zero, SegmentRatio.zero⟩,
    fr1 := ⟨SegmentRatio.zero, SegmentRatio.zero⟩,
    on_a0 := SegmentRatio.zero, on_a1 := SegmentRatio.zero }

/-- One guarded admission block of segments_collinear: when the range
test passed and fewer than two points are recorded, write the point,
fraction pair and on_a position at the current index and increment it. -/
def collinearStep (pass : Bool) (pt : Point) (fr : FractionPair)
    (onA : SegmentRatio) (s : CollinearState) : CollinearState :=
  if pass = true ∧ s.index < 2 then
    if s.index = 0 then
      { s with index := 1, ip0 := pt, fr0 := fr, on_a0 := onA }
    else
      { s with index := 2, ip1 := pt, fr1 := fr, on_a1 := onA }
  else s

/-- segments_collinear from intersection_points.hpp: the four candidate
tests in source order (A start wrt B, B start wrt A, A end wrt B, B end
wrt A), followed by the final swap aligning the pair with segment A. -/
def segments_collinear (a b : Segment)
    (ra_from_wrt_b ra_to_wrt_b rb_from_wrt_a rb_to_wrt_a : SegmentRatio) :
    IntersectionResult :=
  let s1 := collinearStep ra_from_wrt_b.on_segmentB a.first
    ⟨SegmentRatio.zero, ra_from_wrt_b⟩ SegmentRatio.zero collinearInit
  let s2 := collinearStep rb_from_wrt_a.in_segmentB b.first
    ⟨rb_from_wrt_a, SegmentRatio.zero⟩ rb_from_wrt_a s1
  let s3 := collinearStep ra_to_wrt_b.on_segmentB a.second
    ⟨SegmentRatio.one, ra_to_wrt_b⟩ SegmentRatio.one s2
  let s4 := collinearStep rb_to_wrt_a.in_segmentB b.second
    ⟨rb_to_wrt_a, SegmentRatio.one⟩ rb_to_wrt_a s3
  let s5 :=
    if s4.index = 2 ∧ SegmentRatio.ltB s4.on_a1 s4.on_a0 = true then
      { s4 with ip0 := s4.ip1, ip1 := s4.ip0, fr0 := s4.fr1, fr1 := s4.fr0 }
    else s4
  { count := s5.index, ip0 := s5.ip0, ip1 := s5.ip1, fr0 := s5.fr0, fr1 := s5.fr1 }

/-- disjoint from intersection_points.hpp: a default (count 0) result. -/
def disjoint : IntersectionResult := emptyResult

/-- degenerate from intersection_points.hpp: count 1 at the collapsed
segment's first point. -/
def degenerate (segment : Segment) : IntersectionResult :=
  { emptyResult with count := 1, ip0 := segment.first }

/-- Models boost::numeric_cast into a bounded integer coordinate domain
[lo, hi]: in-range values convert exactly, out-of-range values raise
(modelled as none); the cast never wraps. -/
def numeric_cast_checked (lo hi v : Int) : Option Int :=
  if lo ≤ v ∧ v ≤ hi then some v else none

/-- assign instantiated at a bounded integer coordinate domain: each
computed coordinate passes through the checked conversion; a raised
conversion error propagates. -/
def assign_checked (lo hi : Int) (segment : Segment) (ratio : SegmentRatio)
    (dx dy : Int) : Option Point :=
  (numeric_cast_checked lo hi
      (segment.first.x + Int.tdiv (ratio.num * dx) ratio.den)).bind fun px =>
    (numeric_cast_checked lo hi
        (segment.first.y + Int.tdiv (ratio.num * dy) ratio.den)).map fun py =>
      { x := px, y := py }

/-- segments_crosses instantiated at a bounded integer coordinate
domain: the conversion error raised inside assign propagates out of the
whole call (there is no handler in the source), so an overflowing input
produces no result at all. -/
def segments_crosses_checked (lo hi : Int) (sinfo : SegmentIntersectionInfo)
    (s1 s2 : Segment) : Option IntersectionResult :=
  (if SegmentRatio.ltB sinfo.robust_ra sinfo.robust_rb then
      assign_checked lo hi s1 sinfo.robust_ra sinfo.dx_a sinfo.dy_a
    else
      assign_checked lo hi s2 sinfo.robust_rb sinfo.dx_b sinfo.dy_b).map fun ip =>
    { count := 1, ip0 := ip, ip1 := ⟨0, 0⟩,
      fr0 := ⟨sinfo.robust_ra, sinfo.robust_rb⟩,
      fr1 := ⟨SegmentRatio.zero, SegmentRatio.zero⟩ }

/-- Spec-worded restatement of the Turn Sorter key sequence (for the
refinement claim about the sorter): segment identifier ascending, then
fraction ascending, then the operation-priority comparison over the
operand pair; nothing else. -/
def lessSpec (lessOp : TurnOperation → TurnOperation → Bool) (opId : Fin 2)
    (left right : Turn) : Bool :=
  let l := left.operations opId
  let r := right.operations opId
  if SegmentIdentifier.lt l.seg_id r.seg_id then true
  else if l.seg_id = r.seg_id then
    if SegmentRatio.ltB l.fraction r.fraction then true
    else if SegmentRatio.eqB l.fraction r.fraction then lessOp l r
    else false
  else false

/-- One collinear-overlap candidate: its admission test, the point it
would contribute, its fraction pair, and its position along segment A. -/
structure CollinearCandidate where
  pass : Bool
  pt : Point
  fr : FractionPair
  on_a : SegmentRatio

/-- Spec-worded candidate list for the collinear overlap case, in the
fixed priority order: A start wrt B (on_segment), B start wrt A
(in_segment), A end wrt B (on_segment), B end wrt A (in_segment). -/
def collinearCandidates (a b : Segment)
    (ra_from_wrt_b ra_to_wrt_b rb_from_wrt_a rb_to_wrt_a : SegmentRatio) :
    List CollinearCandidate :=
  [⟨ra_from_wrt_b.on_segmentB, a.first,
      ⟨SegmentRatio.zero, ra_from_wrt_b⟩, SegmentRatio.zero⟩,
   ⟨rb_from_wrt_a.in_segmentB, b.first,
      ⟨rb_from_wrt_a, SegmentRatio.zero⟩, rb_from_wrt_a⟩,
   ⟨ra_to_wrt_b.on_segmentB, a.second,
      ⟨SegmentRatio.one, ra_to_wrt_b⟩, SegmentRatio.one⟩,
   ⟨rb_to_wrt_a.in_segmentB, b.second,
      ⟨rb_to_wrt_a, SegmentRatio.one⟩, rb_to_wrt_a⟩]

/-- Spec-worded restatement of segments_collinear (for the refinement
claim): admit passing candidates in order while fewer than two are
recorded, count the admissions, and when exactly two are admitted emit
them swapped exactly when the second has the smaller position along A. -/
def collinearSpec (a b : Segment)
    (ra_from_wrt_b ra_to_wrt_b rb_from_wrt_a rb_to_wrt_a : SegmentRatio) :
    IntersectionResult :=
  match ((collinearCandidates a b ra_from_wrt_b ra_to_wrt_b rb_from_wrt_a
      rb_to_wrt_a).filter (fun c => c.pass)).take 2 with
  | [] => emptyResult
  | [p] => { emptyResult with count := 1, ip0 := p.pt, fr0 := p.fr }
  | p :: q :: _ =>
    if SegmentRatio.ltB q.on_a p.on_a then
      { emptyResult with count := 2, ip0 := q.pt, ip1 := p.pt, fr0 := q.fr, fr1 := p.fr }
    else
      { emptyResult with count := 2, ip0 := p.pt, ip1 := q.pt, fr0 := p.fr, fr1 := q.fr }

/-- The xuic priority table named in turns.hpp (none 0, union 2,
intersection 3, blocked 1, continue 4, opposite 0). -/
def xuicRank : OperationType → Int := op_to_int 0 2 3 1 4 0

/-- The xiuc priority table named in turns.hpp (union and intersection
swapped relative to xuic). -/
def xiucRank : OperationType → Int := op_to_int 0 3 2 1 4 0

/-- The single fixed table of the areal/linear comparator (none 0,
union 1, intersection 0, blocked 0, continue 2, opposite 0). -/
def arealLinearRank : OperationType → Int := op_to_int 0 1 0 0 2 0

/-- The linear/linear reference rank assignment stated by the spec
(none 0, union 2, intersection 3, blocked 1, continue 4, opposite 0). -/
def linearLinearRank : OperationType → Int := op_to_int 0 2 3 1 4 0

/-- Swapping the union and intersection tags, the mirroring that
relates the xuic and xiuc tables. -/
def swapUnionIntersection : OperationType → OperationType
  | .operation_union => .operation_intersection
  | .operation_intersection => .operation_union
  | op => op

/-- A turn operation fixture: given other-id indices and a tag, with a
fixed own segment identifier and fraction 1/2. -/
def ceOp (m r : Int) (op : OperationType) : TurnOperation :=
  { operation := op, seg_id := ⟨0, 0, 0, 0⟩, fraction := ⟨1, 2⟩,
    other_id := ⟨m, r⟩ }

/-- A turn fixture whose two operations are the same ceOp record. -/
def ceTurn (m r : Int) (op : OperationType) : Turn :=
  { op0 := ceOp m r op, op1 := ceOp m r op }

/-- Intersection info fixture whose two candidate ratios are both 1/1
and whose deltas are 100, driving the computed coordinate past a small
bounded domain. -/
def overflowSinfo : SegmentIntersectionInfo :=
  { robust_ra := ⟨1, 1⟩, robust_rb := ⟨1, 1⟩,
    dx_a := 100, dy_a := 0, dx_b := 100, dy_b := 0 }

/-- Segment fixture starting at (100, 0). -/
def overflowSeg : Segment := ⟨⟨100, 0⟩, ⟨200, 0⟩⟩

/-- Intersection info fixture with equal cross-multiplied ratios
written with different representations (1/2 and 2/4). -/
def equalRatioSinfo : SegmentIntersectionInfo :=
  { robust_ra := ⟨1, 2⟩, robust_rb := ⟨2, 4⟩,
    dx_a := 10, dy_a := 4, dx_b := 6, dy_b := 8 }

/-- Segment fixture used as segment 1 in witnesses. -/
def witnessSeg1 : Segment := ⟨⟨0, 0⟩, ⟨10, 4⟩⟩

/-- Segment fixture used as segment 2 in witnesses. -/
def witnessSeg2 : Segment := ⟨⟨4, -4⟩, ⟨10, 4⟩⟩

theorem sid_lt_true_iff (a b : SegmentIdentifier) :
    SegmentIdentifier.lt a b = true ↔ sidLtP a b := by
  simp [SegmentIdentifier.lt]

theorem sid_lt_trans {a b c : SegmentIdentifier}
    (h1 : sidLtP a b) (h2 : sidLtP b c) : sidLtP a c := by
  unfold sidLtP at *; omega

theorem sid_irrefl (a : SegmentIdentifier) : ¬ sidLtP a a := by
  unfold sidLtP; omega

theorem sid_eq_of_not_lt {a b : SegmentIdentifier}
    (h1 : ¬ sidLtP a b) (h2 : ¬ sidLtP b a) : a = b := by
  obtain ⟨a1, a2, a3, a4⟩ := a
  obtain ⟨b1, b2, b3, b4⟩ := b
  simp only [SegmentIdentifier.mk.injEq]
  unfold sidLtP at *
  simp only [not_or, not_and, not_lt] at h1 h2
  omega

theorem ratio_lt_trans {a b c : SegmentRatio}
    (ha : 0 < a.den) (hb : 0 < b.den) (hc : 0 < c.den)
    (h1 : a.num * b.den < b.num * a.den) (h2 : b.num * c.den < c.num * b.den) :
    a.num * c.den < c.num * a.den := by
  have h3 : a.num * b.den * c.den < b.num * a.den * c.den :=
    mul_lt_mul_of_pos_right h1 hc
  have h4 : b.num * c.den * a.den < c.num * b.den * a.den :=
    mul_lt_mul_of_pos_right h2 ha
  have h5 : a.num * c.den * b.den < c.num * a.den * b.den := by nlinarith
  exact lt_of_mul_lt_mul_right h5 (le_of_lt hb)

theorem ratio_eq_trans {a b c : SegmentRatio} (hb : 0 < b.den)
    (h1 : a.num * b.den = b.num * a.den) (h2 : b.num * c.den = c.num * b.den) :
    a.num * c.den = c.num * a.den := by
  have h5 : a.num * c.den * b.den = c.num * a.den * b.den := by
    linear_combination c.den * h1 + a.den * h2
  exact mul_right_cancel₀ (ne_of_gt hb) h5

theorem ratio_eq_lt_trans {a b c : SegmentRatio}
    (ha : 0 < a.den) (hb : 0 < b.den)
    (h1 : a.num * b.den = b.num * a.den) (h2 : b.num * c.den < c.num * b.den) :
    a.num * c.den < c.num * a.den := by
  have h4 : b.num * c.den * a.den < c.num * b.den * a.den :=
    mul_lt_mul_of_pos_right h2 ha
  have e1 : a.num * c.den * b.den = b.num * c.den * a.den := by
    linear_combination c.den * h1
  have e2 : c.num * a.den * b.den = c.num * b.den * a.den := by ring
  have h5 : a.num * c.den * b.den < c.num * a.den * b.den := by linarith
  exact lt_of_mul_lt_mul_right h5 (le_of_lt hb)

theorem ratio_lt_eq_trans {a b c : SegmentRatio}
    (hb : 0 < b.den) (hc : 0 < c.den)
    (h1 : a.num * b.den < b.num * a.den) (h2 : b.num * c.den = c.num * b.den) :
    a.num * c.den < c.num * a.den := by
  have h3 : a.num * b.den * c.den < b.num * a.den * c.den :=
    mul_lt_mul_of_pos_right h1 hc
  have e1 : b.num * a.den * c.den = c.num * a.den * b.den := by
    linear_combination a.den * h2
  have e2 : a.num * c.den * b.den = a.num * b.den * c.den := by ring
  have h5 : a.num * c.den * b.den < c.num * a.den * b.den := by linarith
  exact lt_of_mul_lt_mul_right h5 (le_of_lt hb)

theorem ratio_eq_of_not_lt {a b : SegmentRatio}
    (h1 : ¬ a.num * b.den < b.num * a.den) (h2 : ¬ b.num * a.den < a.num * b.den) :
    a.num * b.den = b.num * a.den :=
  le_antisymm (not_lt.mp h2) (not_lt.mp h1)

theorem use_fraction_true_iff (lessOp : TurnOperation → TurnOperation → Bool)
    (l r : TurnOperation) :
    use_fraction lessOp l r = true ↔
      ((l.fraction.num * r.fraction.den = r.fraction.num * l.fraction.den ∧
          lessOp l r = true) ∨
        (l.fraction.num * r.fraction.den ≠ r.fraction.num * l.fraction.den ∧
          l.fraction.num * r.fraction.den < r.fraction.num * l.fraction.den)) := by
  unfold use_fraction SegmentRatio.eqB SegmentRatio.ltB
  by_cases h : l.fraction.num * r.fraction.den = r.fraction.num * l.fraction.den <;>
    simp [h]

theorem less_true_iff (lessOp : TurnOperation → TurnOperation → Bool)
    (opId : Fin 2) (x y : Turn) :
    less lessOp opId x y = true ↔
      (sidLtP (x.operations opId).seg_id (y.operations opId).seg_id ∨
        ((x.operations opId).seg_id = (y.operations opId).seg_id ∧
          use_fraction lessOp (x.operations opId) (y.operations opId) = true)) := by
  simp [less, SegmentIdentifier.lt]

theorem less_op_xxx_linear_true_iff (f : OperationType → Int)
    (l r : TurnOperation) :
    less_op_xxx_linear f l r = true ↔ f l.operation < f r.operation := by
  simp [less_op_xxx_linear]

/-- Claim C1, counterexample: the Turn Sorter comparator is not a strict
weak order for every category pairing. Under the areal/areal pairing
three Turns with equal segment identifiers and equal fractions form a
cyclic triple, and under the linear/areal pairing transitivity fails. -/
theorem C1_cyclic_triple :
    (less less_op_areal_areal 0 (ceTurn 0 (-1) .operation_union)
        (ceTurn 0 (-1) .operation_intersection) = true ∧
      less less_op_areal_areal 0 (ceTurn 0 (-1) .operation_intersection)
        (ceTurn 0 0 .operation_union) = true ∧
      less less_op_areal_areal 0 (ceTurn 0 0 .operation_union)
        (ceTurn 0 (-1) .operation_union) = true) ∧
    (less less_op_linear_areal 0 (ceTurn 0 0 .operation_union)
        (ceTurn 0 0 .operation_intersection) = true ∧
      less less_op_linear_areal 0 (ceTurn 0 0 .operation_intersection)
        (ceTurn 0 1 .operation_union) = true ∧
      less less_op_linear_areal 0 (ceTurn 0 0 .operation_union)
        (ceTurn 0 1 .operation_union) = false) := by
  decide

/-- Claim C1 (amended): for the single-table pairings
(linear/linear, table op_to_int<0,2,3,1,4,0>, and areal/linear, table
op_to_int<0,1,0,0,2,0>) and every operand choice, the Turn Sorter
comparator is a strict weak order over Turns with positive fraction
denominators: irreflexive, transitive, and two Turns compare as
equivalent only when segment identifier, cross-multiplied ratio and
operation-priority rank all agree. (For the linear/areal and
areal/areal pairings the comparator is not transitive.) -/
theorem C1_less_strict_weak_order (f : OperationType → Int)
    (_hf : f = op_to_int 0 2 3 1 4 0 ∨ f = op_to_int 0 1 0 0 2 0)
    (opId : Fin 2) (a b c : Turn)
    (ha : 0 < ((a.operations opId).fraction).den)
    (hb : 0 < ((b.operations opId).fraction).den)
    (hc : 0 < ((c.operations opId).fraction).den) :
    less (less_op_xxx_linear f) opId a a = false ∧
    (less (less_op_xxx_linear f) opId a b = true →
      less (less_op_xxx_linear f) opId b c = true →
      less (less_op_xxx_linear f) opId a c = true) ∧
    (less (less_op_xxx_linear f) opId a b = false →
      less (less_op_xxx_linear f) opId b a = false →
      (a.operations opId).seg_id = (b.operations opId).seg_id ∧
      (a.operations opId).fraction.num * (b.operations opId).fraction.den =
        (b.operations opId).fraction.num * (a.operations opId).fraction.den ∧
      f (a.operations opId).operation = f (b.operations opId).operation) := by
  clear _hf
  refine ⟨?_, ?_, ?_⟩
  · rw [Bool.eq_false_iff]
    intro h
    rw [less_true_iff] at h
    rcases h with h | ⟨_, h⟩
    · exact sid_irrefl _ h
    · rw [use_fraction_true_iff] at h
      rcases h with ⟨_, h⟩ | ⟨hne, _⟩
      · rw [less_op_xxx_linear_true_iff] at h
        exact lt_irrefl _ h
      · exact hne rfl
  · intro h1 h2
    rw [less_true_iff] at h1 h2 ⊢
    rcases h1 with h1 | ⟨e1, u1⟩
    · rcases h2 with h2 | ⟨e2, u2⟩
      · exact Or.inl (sid_lt_trans h1 h2)
      · exact Or.inl (by rw [← e2]; exact h1)
    · rcases h2 with h2 | ⟨e2, u2⟩
      · exact Or.inl (by rw [e1]; exact h2)
      · refine Or.inr ⟨e1.trans e2, ?_⟩
        rw [use_fraction_true_iff] at u1 u2 ⊢
        rcases u1 with ⟨q1, l1⟩ | ⟨n1, t1⟩
        · rcases u2 with ⟨q2, l2⟩ | ⟨n2, t2⟩
          · refine Or.inl ⟨ratio_eq_trans hb q1 q2, ?_⟩
            rw [less_op_xxx_linear_true_iff] at l1 l2 ⊢
            exact lt_trans l1 l2
          · have ht := ratio_eq_lt_trans ha hb q1 t2
            exact Or.inr ⟨ne_of_lt ht, ht⟩
        · rcases u2 with ⟨q2, l2⟩ | ⟨n2, t2⟩
          · have ht := ratio_lt_eq_trans hb hc t1 q2
            exact Or.inr ⟨ne_of_lt ht, ht⟩
          · have ht := ratio_lt_trans ha hb hc t1 t2
            exact Or.inr ⟨ne_of_lt ht, ht⟩
  · intro h1 h2
    have n1 : ¬ (less (less_op_xxx_linear f) opId a b = true) := by simp [h1]
    have n2 : ¬ (less (less_op_xxx_linear f) opId b a = true) := by simp [h2]
    simp only [less_true_iff, not_or] at n1 n2
    obtain ⟨ns1, n1b⟩ := n1
    obtain ⟨ns2, n2b⟩ := n2
    have e : (a.operations opId).seg_id = (b.operations opId).seg_id :=
      sid_eq_of_not_lt ns1 ns2
    have nuf1 : ¬ (use_fraction (less_op_xxx_linear f) (a.operations opId)
        (b.operations opId) = true) := fun h => n1b ⟨e, h⟩
    have nuf2 : ¬ (use_fraction (less_op_xxx_linear f) (b.operations opId)
        (a.operations opId) = true) := fun h => n2b ⟨e.symm, h⟩
    simp only [use_fraction_true_iff, not_or, not_and, ne_eq, not_not] at nuf1 nuf2
    by_cases hq : (a.operations opId).fraction.num * (b.operations opId).fraction.den =
        (b.operations opId).fraction.num * (a.operations opId).fraction.den
    · have nl1 := nuf1.1 hq
      have nl2 := nuf2.1 hq.symm
      rw [less_op_xxx_linear_true_iff] at nl1 nl2
      exact ⟨e, hq, le_antisymm (not_lt.mp nl2) (not_lt.mp nl1)⟩
    · exact absurd
        (ratio_eq_of_not_lt (nuf1.2 hq) (nuf2.2 (fun h => hq h.symm))) hq

/-- Claim C1, witness: the strict-weak-order theorem applied at the
linear/linear table, operand 0 and a concrete Turn (irreflexivity
component), with all positivity hypotheses discharged. -/
theorem C1_less_strict_weak_order_witness :
    less (less_op_xxx_linear (op_to_int 0 2 3 1 4 0)) 0
      (ceTurn 0 0 .operation_union) (ceTurn 0 0 .operation_union) = false :=
  (C1_less_strict_weak_order (op_to_int 0 2 3 1 4 0) (Or.inl rfl) 0
    (ceTurn 0 0 .operation_union) (ceTurn 0 0 .operation_union)
    (ceTurn 0 0 .operation_union) (by decide) (by decide) (by decide)).1

/-- Claim C2, counterexample: in the areal/areal comparator, two
operations with differing other multi indices (left 1, right 0) compare
as left-before-right because of their tags, although the claimed
ascending multi-index order would put right first. -/
theorem C2_multi_index_not_first :
    less_op_areal_areal (ceOp 1 0 .operation_union) (ceOp 0 0 .operation_intersection) = true ∧
    ¬ ((ceOp 1 0 .operation_union).other_id.multi_index <
        (ceOp 0 0 .operation_intersection).other_id.multi_index) := by
  decide

/-- Claim C2 (amended): in the areal/areal comparator, whenever the
other multi indices differ the result is decided by the
union-before-intersection table op_to_int<0,1,2,3,4,0> applied to the
two operation tags; the multi-index values themselves do not enter. -/
theorem C2_multi_differs_uses_table (l r : TurnOperation)
    (h : l.other_id.multi_index ≠ r.other_id.multi_index) :
    less_op_areal_areal l r =
      decide (op_to_int 0 1 2 3 4 0 l.operation < op_to_int 0 1 2 3 4 0 r.operation) := by
  simp [less_op_areal_areal, h]

/-- Claim C2, witness: the amended theorem applied to concrete
operations with multi indices 1 and 0. -/
theorem C2_multi_differs_uses_table_witness :
    less_op_areal_areal (ceOp 1 0 .operation_union) (ceOp 0 0 .operation_intersection) =
      decide (op_to_int 0 1 2 3 4 0 OperationType.operation_union <
        op_to_int 0 1 2 3 4 0 OperationType.operation_intersection) :=
  C2_multi_differs_uses_table (ceOp 1 0 .operation_union)
    (ceOp 0 0 .operation_intersection) (by decide)

/-- Claim C3, counterexample: the outer-ring-sentinel exception is
absent from the linear/areal comparator: a left operand with other ring
index -1 and operation union (which the claim says is never the lesser)
still compares as lesser against a continue operation in another ring
of the same component. -/
theorem C3_sentinel_ignored_linear_areal :
    (ceOp 0 (-1) .operation_union).other_id.ring_index = -1 ∧
    (ceOp 0 (-1) .operation_union).operation = .operation_union ∧
    less_op_linear_areal (ceOp 0 (-1) .operation_union) (ceOp 0 0 .operation_continue) = true := by
  decide

/-- Claim C3 (amended): the outer-ring-sentinel exception holds in the
areal/areal comparator only: with equal other multi indices and
different other ring indices, a -1-ring union operand never compares as
the lesser, a -1-ring intersection operand always does, and
symmetrically when the sentinel operand is on the right; the
linear/areal comparator merely switches priority tables. -/
theorem C3_areal_areal_sentinel (l r : TurnOperation)
    (hm : l.other_id.multi_index = r.other_id.multi_index)
    (hr : l.other_id.ring_index ≠ r.other_id.ring_index) :
    (l.other_id.ring_index = -1 → l.operation = .operation_union →
      less_op_areal_areal l r = false) ∧
    (l.other_id.ring_index = -1 → l.operation = .operation_intersection →
      less_op_areal_areal l r = true) ∧
    (r.other_id.ring_index = -1 → r.operation = .operation_union →
      less_op_areal_areal l r = true) ∧
    (r.other_id.ring_index = -1 → r.operation = .operation_intersection →
      less_op_areal_areal l r = false) := by
  refine ⟨?_, ?_, ?_, ?_⟩ <;> intro h1 h2
  · have hrr : ¬ ((-1 : Int) = r.other_id.ring_index) := fun hh => hr (h1.trans hh)
    simp [less_op_areal_areal, hm, hr, h1, h2, hrr]
  · have hrr : ¬ ((-1 : Int) = r.other_id.ring_index) := fun hh => hr (h1.trans hh)
    simp [less_op_areal_areal, hm, hr, h1, h2, hrr]
  · have hl : l.other_id.ring_index ≠ -1 := by rw [h1] at hr; exact hr
    simp [less_op_areal_areal, hm, hr, hl, h1, h2]
  · have hl : l.other_id.ring_index ≠ -1 := by rw [h1] at hr; exact hr
    simp [less_op_areal_areal, hm, hr, hl, h1, h2]

/-- Claim C3, witness: the sentinel behaviour at concrete areal/areal
operations (left other ring -1, union against a hole-ring operand). -/
theorem C3_areal_areal_sentinel_witness :
    less_op_areal_areal (ceOp 0 (-1) .operation_union) (ceOp 0 2 .operation_intersection) = false :=
  (C3_areal_areal_sentinel (ceOp 0 (-1) .operation_union)
    (ceOp 0 2 .operation_intersection) (by decide) (by decide)).1
    (by decide) (by decide)

/-- Claim C4: the Turn Sorter compares by exactly the claimed key
sequence — chosen operand's segment identifier ascending, then that
operand's fraction ascending by cross-multiplication, then the
operation-priority comparison over the operand pair — for every
operand choice and every operation comparator; lessSpec is that key
sequence written from the spec's words, and the source comparator
coincides with it on all inputs. -/
theorem C4_key_sequence (lessOp : TurnOperation → TurnOperation → Bool)
    (opId : Fin 2) (x y : Turn) :
    less lessOp opId x y = lessSpec lessOp opId x y := by
  unfold less lessSpec use_fraction
  by_cases h1 : SegmentIdentifier.lt (x.operations opId).seg_id (y.operations opId).seg_id = true
  · simp [h1]
  · rw [Bool.not_eq_true] at h1
    by_cases h2 : (x.operations opId).seg_id = (y.operations opId).seg_id
    · by_cases h3 : SegmentRatio.eqB (x.operations opId).fraction (y.operations opId).fraction = true
      · have h4 : SegmentRatio.ltB (x.operations opId).fraction (y.operations opId).fraction = false := by
          simp only [SegmentRatio.eqB, decide_eq_true_eq] at h3
          simp [SegmentRatio.ltB, h3]
        simp [h1, h2, h3, h4]
      · rw [Bool.not_eq_true] at h3
        simp only [h1, h2, h3]
        by_cases h5 : SegmentRatio.ltB (x.operations opId).fraction (y.operations opId).fraction = true <;>
          simp [h5]
    · simp [h1, h2]

/-- Claim C5: segments_crosses always reports count 1, and the reported
point is segment 1's start plus segment 1's ratio-weighted deltas when
segment 1's candidate ratio compares strictly less than segment 2's by
cross-multiplication, and segment 2's start plus segment 2's
ratio-weighted deltas otherwise. -/
theorem C5_crosses_point_selection (sinfo : SegmentIntersectionInfo) (s1 s2 : Segment) :
    (segments_crosses sinfo s1 s2).count = 1 ∧
    (segments_crosses sinfo s1 s2).ip0 =
      (if SegmentRatio.ltB sinfo.robust_ra sinfo.robust_rb then
        ({ x := s1.first.x + Int.tdiv (sinfo.robust_ra.num * sinfo.dx_a) sinfo.robust_ra.den,
           y := s1.first.y + Int.tdiv (sinfo.robust_ra.num * sinfo.dy_a) sinfo.robust_ra.den } : Point)
      else
        ({ x := s2.first.x + Int.tdiv (sinfo.robust_rb.num * sinfo.dx_b) sinfo.robust_rb.den,
           y := s2.first.y + Int.tdiv (sinfo.robust_rb.num * sinfo.dy_b) sinfo.robust_rb.den } : Point)) := by
  refine ⟨rfl, ?_⟩
  unfold segments_crosses assign
  rfl

/-- Claim C10: when the two candidate robust ratios compare equal under
cross-multiplication, segments_crosses derives the reported point from
segment 2's parametrization (segment 2's start plus segment 2's
ratio-weighted deltas). -/
theorem C10_equal_ratios_use_second (sinfo : SegmentIntersectionInfo) (s1 s2 : Segment)
    (h : SegmentRatio.eqB sinfo.robust_ra sinfo.robust_rb = true) :
    (segments_crosses sinfo s1 s2).ip0 =
      { x := s2.first.x + Int.tdiv (sinfo.robust_rb.num * sinfo.dx_b) sinfo.robust_rb.den,
        y := s2.first.y + Int.tdiv (sinfo.robust_rb.num * sinfo.dy_b) sinfo.robust_rb.den } := by
  have hlt : SegmentRatio.ltB sinfo.robust_ra sinfo.robust_rb = false := by
    simp only [SegmentRatio.eqB, decide_eq_true_eq] at h
    simp [SegmentRatio.ltB, h]
  simp [segments_crosses, assign, hlt]

/-- Claim C10, witness: the theorem applied to equal ratios written
with different representations (1/2 and 2/4). -/
theorem C10_equal_ratios_use_second_witness :
    (segments_crosses equalRatioSinfo witnessSeg1 witnessSeg2).ip0 =
      { x := witnessSeg2.first.x +
          Int.tdiv (equalRatioSinfo.robust_rb.num * equalRatioSinfo.dx_b)
            equalRatioSinfo.robust_rb.den,
        y := witnessSeg2.first.y +
          Int.tdiv (equalRatioSinfo.robust_rb.num * equalRatioSinfo.dy_b)
            equalRatioSinfo.robust_rb.den } :=
  C10_equal_ratios_use_second equalRatioSinfo witnessSeg1 witnessSeg2 (by decide)

/-- Claim C7, counterexample: the selection inside the linear/areal and
areal/linear comparators is not a choice between two mirrored tables
driven by whether the other multi and ring indices are both equal. With
equal union tags (equal rank under either mirrored table, so either
table would answer false) the linear/areal comparator still answers
true for multi indices 0 against 1, and false with the operands
exchanged; and with differing ids the areal/linear comparator answers
false for union against intersection although the mirror of its
same-ring table would rank union first. -/
theorem C7_selection_not_by_ids :
    less_op_linear_areal (ceOp 0 0 .operation_union) (ceOp 1 0 .operation_union) = true ∧
    less_op_linear_areal (ceOp 1 0 .operation_union) (ceOp 0 0 .operation_union) = false ∧
    less_op_areal_linear (ceOp 0 0 .operation_union) (ceOp 1 0 .operation_intersection) = false := by
  decide

/-- Claim C7 (amended): in the same ring/component the linear/areal
comparator ranks union before intersection and the areal/linear
comparator ranks intersection before union. Only the linear/areal
comparator selects between the two mirrored tables (xuic when the other
ring indices agree, xiuc otherwise) and only when the other multi
indices agree; when they differ it orders by multi index alone. The
areal/linear comparator applies the single fixed table
op_to_int<0,1,0,0,2,0> regardless of the operations' other ids. -/
theorem C7_mirrored_tables (l r : TurnOperation) :
    (l.other_id.multi_index = r.other_id.multi_index →
      ((l.other_id.ring_index = r.other_id.ring_index →
          less_op_linear_areal l r =
            decide (xuicRank l.operation < xuicRank r.operation)) ∧
        (l.other_id.ring_index ≠ r.other_id.ring_index →
          less_op_linear_areal l r =
            decide (xiucRank l.operation < xiucRank r.operation)))) ∧
    (l.other_id.multi_index ≠ r.other_id.multi_index →
      less_op_linear_areal l r =
        decide (l.other_id.multi_index < r.other_id.multi_index)) ∧
    less_op_areal_linear l r =
      decide (arealLinearRank l.operation < arealLinearRank r.operation) ∧
    (∀ op, xiucRank op = xuicRank (swapUnionIntersection op)) ∧
    xuicRank .operation_union < xuicRank .operation_intersection ∧
    arealLinearRank .operation_intersection < arealLinearRank .operation_union := by
  refine ⟨?_, ?_, rfl, ?_, by decide, by decide⟩
  · intro hm
    constructor
    · intro hr
      simp [less_op_linear_areal, hm, hr, xuicRank]
    · intro hr
      simp [less_op_linear_areal, hm, hr, xiucRank]
  · intro hm
    simp [less_op_linear_areal, hm]
  · intro op
    cases op <;> rfl

/-- Claim C8, counterexample: the claimed chain
none < intersection < opposite < blocked < continue contradicts the
rank assignment the same sentence gives: with ranks
intersection=3, opposite=0, blocked=1 the comparator puts blocked and
opposite before intersection, and union (rank 2) does not share the
lowest rank with opposite (rank 0). -/
theorem C8_claimed_chain_false :
    less_op_linear_linear (ceOp 0 0 .operation_intersection) (ceOp 0 0 .operation_opposite) = false ∧
    less_op_linear_linear (ceOp 0 0 .operation_opposite) (ceOp 0 0 .operation_intersection) = true ∧
    linearLinearRank .operation_union ≠ linearLinearRank .operation_opposite := by
  decide

/-- Claim C8 (amended): the linear/linear comparator orders operations
as none = opposite < blocked < union < intersection < continue,
realized by the rank assignment none=0, union=2, intersection=3,
blocked=1, continue=4, opposite=0, with none and opposite sharing the
lowest rank: left compares less than right exactly when left's rank is
strictly less than right's. -/
theorem C8_linear_linear_rank_order (l r : TurnOperation) :
    less_op_linear_linear l r =
      decide (linearLinearRank l.operation < linearLinearRank r.operation) ∧
    linearLinearRank .operation_none = 0 ∧
    linearLinearRank .operation_union = 2 ∧
    linearLinearRank .operation_intersection = 3 ∧
    linearLinearRank .operation_blocked = 1 ∧
    linearLinearRank .operation_continue = 4 ∧
    linearLinearRank .operation_opposite = 0 ∧
    linearLinearRank .operation_none = linearLinearRank .operation_opposite ∧
    linearLinearRank .operation_opposite < linearLinearRank .operation_blocked ∧
    linearLinearRank .operation_blocked < linearLinearRank .operation_union ∧
    linearLinearRank .operation_union < linearLinearRank .operation_intersection ∧
    linearLinearRank .operation_intersection < linearLinearRank .operation_continue :=
  ⟨rfl, by decide⟩

theorem assign_checked_eq (lo hi : Int) (seg : Segment) (ratio : SegmentRatio)
    (dx dy : Int) :
    assign_checked lo hi seg ratio dx dy =
      (if lo ≤ (assign seg ratio dx dy).x ∧ (assign seg ratio dx dy).x ≤ hi ∧
          lo ≤ (assign seg ratio dx dy).y ∧ (assign seg ratio dx dy).y ≤ hi
        then some (assign seg ratio dx dy) else none) := by
  unfold assign_checked assign numeric_cast_checked
  by_cases hx1 : lo ≤ seg.first.x + Int.tdiv (ratio.num * dx) ratio.den <;>
  by_cases hx2 : seg.first.x + Int.tdiv (ratio.num * dx) ratio.den ≤ hi <;>
  by_cases hy1 : lo ≤ seg.first.y + Int.tdiv (ratio.num * dy) ratio.den <;>
  by_cases hy2 : seg.first.y + Int.tdiv (ratio.num * dy) ratio.den ≤ hi <;>
  simp [hx1, hx2, hy1, hy2]

/-- Claim C9, counterexample: over the bounded integer domain
[-128, 127] an input whose ratio-weighted coordinate comes out at 200
makes the checked conversion raise, so the whole segments_crosses call
produces no result at all; in particular it does not produce the
disjoint (count 0) result the claim prescribes. -/
theorem C9_overflow_raises :
    segments_crosses_checked (-128) 127 overflowSinfo overflowSeg overflowSeg = none ∧
    segments_crosses_checked (-128) 127 overflowSinfo overflowSeg overflowSeg ≠ some disjoint := by
  decide

/-- Claim C9 (amended): over a bounded integer coordinate domain
[lo, hi], overflow of a computed coordinate is detected at the
conversion boundary — every successfully returned result carries
exactly the unbounded-domain coordinates, in range, with count 1 (no
silent wrapping) — but an out-of-range coordinate makes the conversion
raise and the computation of that intersection abort with no result; it
is not converted into a disjoint count-0 result. -/
theorem C9_overflow_detected (lo hi : Int) (sinfo : SegmentIntersectionInfo)
    (s1 s2 : Segment) :
    (∀ res, segments_crosses_checked lo hi sinfo s1 s2 = some res →
      res = segments_crosses sinfo s1 s2 ∧
      lo ≤ res.ip0.x ∧ res.ip0.x ≤ hi ∧ lo ≤ res.ip0.y ∧ res.ip0.y ≤ hi ∧
      res.count = 1) ∧
    (segments_crosses_checked lo hi sinfo s1 s2 = none ↔
      ¬ (lo ≤ (segments_crosses sinfo s1 s2).ip0.x ∧
          (segments_crosses sinfo s1 s2).ip0.x ≤ hi ∧
          lo ≤ (segments_crosses sinfo s1 s2).ip0.y ∧
          (segments_crosses sinfo s1 s2).ip0.y ≤ hi)) := by
  have key : segments_crosses_checked lo hi sinfo s1 s2 =
      (if lo ≤ (segments_crosses sinfo s1 s2).ip0.x ∧
          (segments_crosses sinfo s1 s2).ip0.x ≤ hi ∧
          lo ≤ (segments_crosses sinfo s1 s2).ip0.y ∧
          (segments_crosses sinfo s1 s2).ip0.y ≤ hi
        then some (segments_crosses sinfo s1 s2) else none) := by
    unfold segments_crosses_checked segments_crosses
    by_cases hb : SegmentRatio.ltB sinfo.robust_ra sinfo.robust_rb = true <;>
      simp only [hb, Bool.false_eq_true, if_true, if_false, assign_checked_eq] <;>
      split <;> simp_all
  constructor
  · intro res hres
    rw [key] at hres
    split at hres
    · rename_i hcond
      rw [Option.some.injEq] at hres
      subst hres
      exact ⟨rfl, hcond.1, hcond.2.1, hcond.2.2.1, hcond.2.2.2, rfl⟩
    · exact absurd hres (Option.noConfusion)
  · rw [key]
    split
    · rename_i hcond
      simp [hcond]
    · rename_i hcond
      simp [hcond]

/-- Claim C6: segments_collinear tests the four endpoint-projection
candidates in the fixed order A-start-wrt-B, B-start-wrt-A,
A-end-wrt-B, B-end-wrt-A; an A-relative candidate is admitted exactly
when its ratio is on_segment and fewer than two points are recorded, a
B-relative candidate exactly when its ratio is in_segment and fewer
than two points are recorded; the count equals the number of admitted
candidates, and with exactly two admitted the emitted pair is swapped
exactly when the second admitted point has the strictly smaller
position along A — which collinearSpec states in the claim's words, and
with which the source function coincides on all inputs. -/
theorem C6_collinear_admission (a b : Segment)
    (ra_from_wrt_b ra_to_wrt_b rb_from_wrt_a rb_to_wrt_a : SegmentRatio) :
    segments_collinear a b ra_from_wrt_b ra_to_wrt_b rb_from_wrt_a rb_to_wrt_a =
      collinearSpec a b ra_from_wrt_b ra_to_wrt_b rb_from_wrt_a rb_to_wrt_a := by
  unfold segments_collinear collinearSpec collinearCandidates collinearStep collinearInit
  cases h1 : ra_from_wrt_b.on_segmentB <;>
  cases h2 : rb_from_wrt_a.in_segmentB <;>
  cases h3 : ra_to_wrt_b.on_segmentB <;>
  cases h4 : rb_to_wrt_a.in_segmentB <;>
    simp [h1, h2, h3, h4, emptyResult, List.filter, List.take] <;>
    (try (split <;> simp))

end BoostGeometry
